/-
Verification of the orders-api repository layer.

Shallow embedding of:
  * src/model/order.go            — the Order / LineItem data model
  * src/repository/order/redis.go — the Redis-backed repository
    (Insert, FindByID, DeletedByID, Update, FindAll)

Modelling conventions
  * `uint64` / `uint` fields carry no arithmetic anywhere in the repository,
    so they are modelled as `Nat`.
  * `uuid.UUID` (a 128-bit identifier) is modelled as a `Nat`; its JSON form
    is its canonical text, which is injective in the identifier, so the JSON
    tree carries the identifier itself in a dedicated `uuidStr` leaf.
  * `*time.Time` is modelled as `Option Nat` (`none` = nil pointer); a
    non-nil time marshals to its RFC3339 text, again injective, carried in a
    `timeStr` leaf.
  * `json.Marshal` of an `Order` value cannot fail in Go (every field type is
    marshalable), so marshalling is a total function into a JSON tree.
    A stored Redis string value is modelled by the JSON tree it parses to
    (JSON printing/parsing of trees is injective).
  * Go's `json.Unmarshal` ignores unknown object fields and leaves missing
    fields at their zero value; a present field of the wrong shape is an
    error.  `null` unmarshals into a pointer or slice as nil, and a JSON
    null into any other Go value is ignored — no effect on the value and
    no error — so a null at a struct, number or uuid position yields the
    zero value there.
  * A nil `[]LineItem` slice and an empty one both round through JSON to an
    empty sequence; both are modelled by `[]`.
-/
import Mathlib

set_option autoImplicit false
set_option linter.unusedVariables false

namespace OrdersApi

/-! ## Data model (src/model/order.go) -/

/-- `model.LineItem`: ItemID uuid.UUID; Quantity uint; Price uint. -/
structure LineItem where
  ItemID : Nat
  Quantity : Nat
  Price : Nat
deriving DecidableEq, Repr

/-- `model.Order`: OrderID uint64; CustomerID uuid.UUID;
LineItems []LineItem; CreatedAt, ShippedAt, CompletedAt *time.Time. -/
structure Order where
  OrderID : Nat
  CustomerID : Nat
  LineItems : List LineItem
  CreatedAt : Option Nat
  ShippedAt : Option Nat
  CompletedAt : Option Nat
deriving DecidableEq, Repr

/-! ## JSON trees

The fragment of JSON that `encoding/json` produces and consumes for the
`Order` struct.  `uuidStr u` stands for the JSON string holding the canonical
text of the uuid `u`; `timeStr t` stands for the JSON string holding the
RFC3339 text of the time `t`.  Both renderings are injective, so the leaves
carry the decoded values directly. -/

inductive Json where
  | null : Json
  | num : Nat → Json
  | uuidStr : Nat → Json
  | timeStr : Nat → Json
  | arr : List Json → Json
  | obj : List (String × Json) → Json

/-- First binding of a field name in a JSON object, as Go's `json.Unmarshal`
field matching (the marshaller never emits duplicate keys). -/
def jsonField : List (String × Json) → String → Option Json
  | [], _ => none
  | (k, v) :: rest, name => if k = name then some v else jsonField rest name

/-! ## `json.Marshal` of an Order

The struct has no json tags, so field names are the Go field names and every
field is emitted (no omitempty); a nil `*time.Time` is emitted as `null`. -/

/-- JSON encoding of one `model.LineItem`. -/
def marshalLineItem (li : LineItem) : Json :=
  Json.obj [("ItemID", Json.uuidStr li.ItemID),
            ("Quantity", Json.num li.Quantity),
            ("Price", Json.num li.Price)]

/-- JSON encoding of a `*time.Time` field: nil ↦ `null`. -/
def marshalTime : Option Nat → Json
  | none => Json.null
  | some t => Json.timeStr t

/-- `json.Marshal(order)` for `model.Order` (fields in struct order). -/
def marshalOrder (o : Order) : Json :=
  Json.obj [("OrderID", Json.num o.OrderID),
            ("CustomerID", Json.uuidStr o.CustomerID),
            ("LineItems", Json.arr (o.LineItems.map marshalLineItem)),
            ("CreatedAt", marshalTime o.CreatedAt),
            ("ShippedAt", marshalTime o.ShippedAt),
            ("CompletedAt", marshalTime o.CompletedAt)]

/-! ## `json.Unmarshal` into an Order -/

/-- Unmarshal a `uint64`/`uint` field: missing ↦ zero value, `null` ↦
ignored (zero value, no error), number ↦ value, anything else ↦ error. -/
def unmarshalNum : Option Json → Option Nat
  | none => some 0
  | some Json.null => some 0
  | some (Json.num n) => some n
  | some _ => none

/-- Unmarshal a `uuid.UUID` field: missing ↦ zero uuid, `null` ↦ ignored
(zero uuid, no error), uuid text ↦ value, anything else ↦ error. -/
def unmarshalUUID : Option Json → Option Nat
  | none => some 0
  | some Json.null => some 0
  | some (Json.uuidStr u) => some u
  | some _ => none

/-- Unmarshal a `*time.Time` field: missing or `null` ↦ nil pointer,
time text ↦ the time, anything else ↦ error. -/
def unmarshalTime : Option Json → Option (Option Nat)
  | none => some none
  | some Json.null => some none
  | some (Json.timeStr t) => some (some t)
  | some _ => none

/-- Unmarshal one array element into a `model.LineItem`: a `null` element
is ignored (zero LineItem, no error); a number or string element is an
error. -/
def unmarshalLineItem : Json → Option LineItem
  | Json.null => some ⟨0, 0, 0⟩
  | Json.obj fs =>
    match unmarshalUUID (jsonField fs "ItemID"),
          unmarshalNum (jsonField fs "Quantity"),
          unmarshalNum (jsonField fs "Price") with
    | some i, some q, some p => some ⟨i, q, p⟩
    | _, _, _ => none
  | _ => none

/-- Unmarshal a JSON array elementwise into line items; the first bad
element fails the whole array. -/
def unmarshalItems : List Json → Option (List LineItem)
  | [] => some []
  | j :: rest =>
    match unmarshalLineItem j, unmarshalItems rest with
    | some li, some lis => some (li :: lis)
    | _, _ => none

/-- Unmarshal the `LineItems` field: missing or `null` ↦ nil slice,
array ↦ elementwise, anything else ↦ error. -/
def unmarshalLineItems : Option Json → Option (List LineItem)
  | none => some []
  | some Json.null => some []
  | some (Json.arr js) => unmarshalItems js
  | some _ => none

/-- `json.Unmarshal(data, &order)` for `model.Order`: a top-level `null`
is ignored (zero Order, no error); top-level numbers, strings and arrays
are errors ("cannot unmarshal … into Go value of type model.Order"). -/
def unmarshalOrder : Json → Option Order
  | Json.null => some ⟨0, 0, [], none, none, none⟩
  | Json.obj fs =>
    match unmarshalNum (jsonField fs "OrderID"),
          unmarshalUUID (jsonField fs "CustomerID"),
          unmarshalLineItems (jsonField fs "LineItems"),
          unmarshalTime (jsonField fs "CreatedAt"),
          unmarshalTime (jsonField fs "ShippedAt"),
          unmarshalTime (jsonField fs "CompletedAt") with
    | some oid, some cid, some lis, some ca, some sa, some cpa =>
      some ⟨oid, cid, lis, ca, sa, cpa⟩
    | _, _, _, _, _, _ => none
  | _ => none

/-! ## Round-trip lemmas -/

theorem unmarshalItems_marshal (l : List LineItem) :
    unmarshalItems (l.map marshalLineItem) = some l := by
  induction l with
  | nil => rfl
  | cons li rest ih =>
    simp only [List.map, unmarshalItems, ih]
    rfl

theorem unmarshalTime_marshal (t : Option Nat) :
    unmarshalTime (some (marshalTime t)) = some t := by
  cases t <;> rfl

/-- Decoding the encoding of any Order gives back the same Order. -/
theorem unmarshal_marshal_order (o : Order) :
    unmarshalOrder (marshalOrder o) = some o := by
  show unmarshalOrder (Json.obj _) = some o
  rw [unmarshalOrder]
  simp only [marshalOrder, jsonField, if_pos, if_neg, String.reduceEq, reduceIte,
    unmarshalNum, unmarshalUUID, unmarshalLineItems, unmarshalItems_marshal,
    unmarshalTime_marshal]

/-! ## Redis store model (src/repository/order/redis.go)

The backend state is the string key-value space plus the `"orders"` set.
A stored string value is modelled by the JSON tree it parses to.
Backend communication failures are injected through explicit fault flags,
one per client round trip the Go code performs; a raised flag makes that
round trip return a non-nil error.  The go-redis specifics that matter:

  * `SetNX`/`SetXX` return a `BoolCmd`; go-redis converts the nil reply of a
    rejected conditional `SET` into `val = false` with a **nil** error, so
    `errors.Is(err, redis.Nil)` is never true for them.
  * `DEL` returns the count of removed keys and never the `redis.Nil`
    sentinel, so `errors.Is(err, redis.Nil)` is never true for it either.
  * A command queued on a `TxPipeline` reports `Err() == nil` until the
    pipeline is executed; executing the pipeline applies the queued
    commands, and a failed execution applies none of them.
-/

/-- The Redis state: the key-value space and the `"orders"` index set
(membership list, kept duplicate-free by `sAdd`). -/
structure RedisState where
  kv : List (String × Json)
  orders : List String

/-- `GET key` / field of an `MGET` reply: first binding of the key. -/
def kvLookup : List (String × Json) → String → Option Json
  | [], _ => none
  | (k, v) :: rest, key => if k = key then some v else kvLookup rest key

/-- `SET key v` on a key known to exist (the `SetXX` write): replace the
binding in place. -/
def kvSet : List (String × Json) → String → Json → List (String × Json)
  | [], key, v => [(key, v)]
  | (k, w) :: rest, key, v =>
    if k = key then (key, v) :: rest else (k, w) :: kvSet rest key v

/-- `DEL key`: remove the binding (a no-op when the key is absent). -/
def kvDel (l : List (String × Json)) (key : String) : List (String × Json) :=
  l.filter (fun p => p.1 ≠ key)

/-- `SADD set k`: add `k` unless already a member. -/
def sAdd (s : List String) (k : String) : List String :=
  if k ∈ s then s else s ++ [k]

/-- `SREM set k`: remove `k`. -/
def sRem (s : List String) (k : String) : List String :=
  s.filter (fun x => x ≠ k)

/-- The errors the repository surfaces (src/repository/order/redis.go).
Each wrapped `fmt.Errorf` message is one constructor; `errNotExist` is the
sentinel `ErrNotExist`.  In the spec's taxonomy: `encodeFailed` is
EncodingError, `decodeFailed` is DecodingError, `errNotExist` is NotFound,
and the remaining wrapped backend errors are StoreError. -/
inductive RepoError where
  | encodeFailed
  | errNotExist
  | insertFailed
  | findFailed
  | decodeFailed
  | deleteFailed
  | updateFailed
  | findAllFailed
deriving DecidableEq, Repr

/-- Fault flags for the two client round trips `Insert` performs:
the direct `r.Client.SetNX` call and the `txn` execution. -/
structure InsertFaults where
  setnxFail : Bool
  commitFail : Bool
deriving DecidableEq, Repr

/-- `orderIDKey(id)`: `fmt.Sprintf("order:%d", id)`. -/
def orderIDKey (id : Nat) : String :=
  "order:" ++ toString id

/-- `RedisRepo.Insert` (redis.go lines 30–56).

Mirrors the source exactly:
  * `json.Marshal(order)` cannot fail for `model.Order`, so the
    `encodeFailed` branch is unreachable and marshalling is total.
  * `res := r.Client.SetNX(ctx, key, string(data), 0)` runs **on the raw
    client**, outside the `txn` pipeline, so it takes effect immediately.
    Its error is non-nil only on a backend failure (`setnxFail`); a rejected
    `SET … NX` on an existing key yields `val = false` with a nil error.
  * `if err != txn.SAdd(ctx, "orders", key).Err()` queues the `SAdd` on the
    transaction; a queued command's `Err()` is nil, and `err` (from
    `json.Marshal`) is nil too, so the branch is never taken.
  * The final transaction execution applies the queued `SAdd`; if it fails
    (`commitFail`) the `SAdd` is not applied — but the `SetNX` above has
    already taken effect. -/
def Insert (st : RedisState) (o : Order) (f : InsertFaults) :
    Except RepoError Unit × RedisState :=
  let data := marshalOrder o
  let key := orderIDKey o.OrderID
  if f.setnxFail then
    (Except.error RepoError.insertFailed, st)
  else
    let st1 : RedisState :=
      if (kvLookup st.kv key).isSome then st
      else { st with kv := st.kv ++ [(key, data)] }
    if f.commitFail then
      (Except.error RepoError.insertFailed, st1)
    else
      (Except.ok (), { st1 with orders := sAdd st1.orders key })

/-- Fault flag for the single `r.Client.Get` round trip of `FindByID`. -/
structure FindFaults where
  getFail : Bool
deriving DecidableEq, Repr

/-- `RedisRepo.FindByID` (redis.go lines 69–86): `GET` the key; a missing
key surfaces as `redis.Nil` and becomes `ErrNotExist`; a backend failure
becomes the wrapped find error; otherwise the stored value is unmarshalled.
Read-only: the state is not modified. -/
def FindByID (st : RedisState) (id : Nat) (f : FindFaults) :
    Except RepoError Order :=
  let key := orderIDKey id
  if f.getFail then Except.error RepoError.findFailed
  else
    match kvLookup st.kv key with
    | none => Except.error RepoError.errNotExist
    | some value =>
      match unmarshalOrder value with
      | none => Except.error RepoError.decodeFailed
      | some order => Except.ok order

/-- Fault flags for the two client round trips of `DeletedByID`:
the direct `r.Client.Del` call and the `txn.Exec`. -/
structure DeleteFaults where
  delFail : Bool
  execFail : Bool
deriving DecidableEq, Repr

/-- `RedisRepo.DeletedByID` (redis.go lines 93–115).

Mirrors the source exactly:
  * `err := r.Client.Del(ctx, key).Err()` runs **on the raw client**,
    outside the `txn` pipeline, and takes effect immediately.  `DEL` never
    returns the `redis.Nil` sentinel (it returns a count, 0 for a missing
    key, with a nil error), so the `ErrNotExist` branch is unreachable;
    only a backend failure (`delFail`) errors here.
  * `txn.SRem(ctx, "orders", key)` is queued; its pre-exec `Err()` is nil,
    so that branch is not taken.
  * `txn.Exec` applies the queued `SRem`; if it fails (`execFail`) the
    `SRem` is not applied — but the `Del` has already taken effect. -/
def DeletedByID (st : RedisState) (id : Nat) (f : DeleteFaults) :
    Except RepoError Unit × RedisState :=
  let key := orderIDKey id
  if f.delFail then
    (Except.error RepoError.deleteFailed, st)
  else
    let st1 : RedisState := { st with kv := kvDel st.kv key }
    if f.execFail then
      (Except.error RepoError.deleteFailed, st1)
    else
      (Except.ok (), { st1 with orders := sRem st1.orders key })

/-- Fault flag for the single `r.Client.SetXX` round trip of `Update`. -/
structure UpdateFaults where
  setxxFail : Bool
deriving DecidableEq, Repr

/-- `RedisRepo.Update` (redis.go lines 121–137).

Mirrors the source exactly: `SetXX` writes only when the key already
exists.  go-redis converts the nil reply of a rejected `SET … XX` into
`val = false` with a nil error, so `errors.Is(err, redis.Nil)` is never
true and the `ErrNotExist` branch is unreachable; on a missing key the
function falls through and returns nil (success) with nothing written.
Only a backend failure (`setxxFail`) errors. -/
def Update (st : RedisState) (o : Order) (f : UpdateFaults) :
    Except RepoError Unit × RedisState :=
  let data := marshalOrder o
  let key := orderIDKey o.OrderID
  if f.setxxFail then
    (Except.error RepoError.updateFailed, st)
  else
    match kvLookup st.kv key with
    | none => (Except.ok (), st)
    | some _ => (Except.ok (), { st with kv := kvSet st.kv key data })

/-- `FindAllPage` (declared `FindALLPage` in the source, a naming slip):
the page size and the scan cursor offset. -/
structure FindAllPage where
  Size : Nat
  Offset : Nat
deriving DecidableEq, Repr

/-- `FindResult`: the decoded page and the continuation cursor. -/
structure FindResult where
  Orders : List Order
  Cursor : Nat
deriving DecidableEq, Repr

/-- The reply of a successful
`SSCAN orders cursor MATCH x COUNT size` round trip: the member keys of
this iteration and the continuation cursor (0 = scan complete).  The reply
is backend-chosen, so `FindAll` takes it as an input; note the source
passes the literal match pattern `"x"`, which no `order:<id>` key matches. -/
structure ScanReply where
  keys : List String
  cursor : Nat
deriving DecidableEq, Repr

/-- Outcome of a `FindAll` call.  `panicked` is a Go runtime panic (the
failed `x.(string)` type assertion), which is not an error return. -/
inductive FindAllOutcome where
  | ok : FindResult → FindAllOutcome
  | err : RepoError → FindAllOutcome
  | panicked : FindAllOutcome
deriving DecidableEq, Repr

/-- The `for i, x := range xs` loop body of `FindAll`, over the `MGET`
reply values in order: `x.(string)` panics on a nil value (missing key);
otherwise the value is unmarshalled and the first bad record aborts the
loop with a decode error. -/
inductive LoopResult where
  | ok : List Order → LoopResult
  | decodeErr : LoopResult
  | panicked : LoopResult
deriving DecidableEq, Repr

/-- Process the `MGET` reply values in order (nil = key missing at fetch
time). -/
def decodeValues : List (Option Json) → LoopResult
  | [] => LoopResult.ok []
  | none :: _ => LoopResult.panicked
  | some j :: rest =>
    match unmarshalOrder j with
    | none => LoopResult.decodeErr
    | some o =>
      match decodeValues rest with
      | LoopResult.ok os => LoopResult.ok (o :: os)
      | r => r

/-- `RedisRepo.FindAll` (redis.go lines 156–200).

`scan = none` models the `SScan` round trip failing; `scan = some reply`
is its reply for the requested `page`.  Mirrors the source exactly:
  * `if len(keys) == 0` returns `FindResult{Orders: []model.Order{}}` —
    the `Cursor` field is left at its zero value, discarding the scan's
    continuation cursor.
  * otherwise `MGET keys...` (failure = `mgetFail`) yields one value per
    key, nil for a key with no stored record, and the loop above runs.
  * on full success the result carries the decoded orders and the scan
    cursor. -/
def FindAll (st : RedisState) (page : FindAllPage) (scan : Option ScanReply)
    (mgetFail : Bool) : FindAllOutcome :=
  match scan with
  | none => FindAllOutcome.err RepoError.findAllFailed
  | some reply =>
    if reply.keys = [] then
      FindAllOutcome.ok { Orders := [], Cursor := 0 }
    else if mgetFail then
      FindAllOutcome.err RepoError.findAllFailed
    else
      match decodeValues (reply.keys.map (kvLookup st.kv)) with
      | LoopResult.panicked => FindAllOutcome.panicked
      | LoopResult.decodeErr => FindAllOutcome.err RepoError.decodeFailed
      | LoopResult.ok os => FindAllOutcome.ok { Orders := os, Cursor := reply.cursor }

/-! ## Store lemmas -/

theorem kvLookup_append (l : List (String × Json)) (key k : String) (v : Json) :
    kvLookup (l ++ [(key, v)]) k =
      match kvLookup l k with
      | some w => some w
      | none => if key = k then some v else none := by
  induction l with
  | nil => rfl
  | cons p rest ih =>
    obtain ⟨k', w⟩ := p
    by_cases h : k' = k
    · simp [kvLookup, h]
    · simpa [kvLookup, h] using ih

theorem kvLookup_kvSet (l : List (String × Json)) (key k : String) (v : Json) :
    kvLookup (kvSet l key v) k = if key = k then some v else kvLookup l k := by
  induction l with
  | nil => rfl
  | cons p rest ih =>
    obtain ⟨k', w⟩ := p
    by_cases hk : k' = key
    · subst hk
      by_cases h : k' = k <;> simp [kvSet, kvLookup, h]
    · by_cases h : k' = k
      · subst h
        have : ¬ key = k' := fun hc => hk hc.symm
        simp [kvSet, kvLookup, hk, this]
      · simpa [kvSet, kvLookup, hk, h] using ih

theorem kvLookup_kvDel (l : List (String × Json)) (key k : String) :
    kvLookup (kvDel l key) k = if key = k then none else kvLookup l k := by
  induction l with
  | nil => simp [kvDel, kvLookup]
  | cons p rest ih =>
    obtain ⟨k', w⟩ := p
    by_cases hk : k' = key
    · subst hk
      by_cases h : k' = k
      · subst h
        simpa [kvDel, kvLookup] using ih
      · have : ¬ k' = k := h
        simpa [kvDel, kvLookup, this, fun hc : k' = k => h hc] using ih
    · by_cases h : k' = k
      · subst h
        have : ¬ key = k' := fun hc => hk hc.symm
        simp [kvDel, kvLookup, hk, this]
      · simpa [kvDel, kvLookup, hk, h] using ih

theorem mem_sAdd (s : List String) (key k : String) :
    k ∈ sAdd s key ↔ k ∈ s ∨ k = key := by
  unfold sAdd
  by_cases h : key ∈ s
  · simp only [if_pos h]
    constructor
    · exact Or.inl
    · rintro (hk | rfl) <;> [exact hk; exact h]
  · simp [if_neg h]

theorem mem_sRem (s : List String) (key k : String) :
    k ∈ sRem s key ↔ k ∈ s ∧ k ≠ key := by
  simp [sRem]

/-! ## The index-consistency invariant and fault-free runs -/

/-- The spec's index invariant: the `"orders"` set holds exactly one entry
per currently stored key. -/
def indexConsistent (st : RedisState) : Prop :=
  st.orders.Nodup ∧ ∀ k : String, k ∈ st.orders ↔ (kvLookup st.kv k).isSome

def noInsertFaults : InsertFaults := ⟨false, false⟩
def noFindFaults : FindFaults := ⟨false⟩
def noDeleteFaults : DeleteFaults := ⟨false, false⟩
def noUpdateFaults : UpdateFaults := ⟨false⟩

/-- One repository operation, as invoked by a caller. -/
inductive Op where
  | insert : Order → Op
  | update : Order → Op
  | delete : Nat → Op
  | findByID : Nat → Op
  | findAll : FindAllPage → Option ScanReply → Bool → Op

/-- State transition of one operation when the backend reports no errors.
`FindByID` and `FindAll` only read the store. -/
def stepNF (st : RedisState) : Op → RedisState
  | Op.insert o => (Insert st o noInsertFaults).2
  | Op.update o => (Update st o noUpdateFaults).2
  | Op.delete id => (DeletedByID st id noDeleteFaults).2
  | Op.findByID _ => st
  | Op.findAll _ _ _ => st

/-- The store starts empty. -/
def emptyState : RedisState := ⟨[], []⟩

/-- State after a fault-free sequence of repository operations from the
empty store. -/
def runNF (ops : List Op) : RedisState :=
  ops.foldl stepNF emptyState

theorem insert_preserves_indexConsistent (st : RedisState) (o : Order)
    (h : indexConsistent st) :
    indexConsistent (Insert st o noInsertFaults).2 := by
  obtain ⟨hnd, hmem⟩ := h
  unfold Insert noInsertFaults
  simp only [Bool.false_eq_true, if_false]
  by_cases hkey : (kvLookup st.kv (orderIDKey o.OrderID)).isSome
  · simp only [if_pos hkey]
    have hin : orderIDKey o.OrderID ∈ st.orders := (hmem _).mpr hkey
    refine ⟨?_, ?_⟩
    · simpa [sAdd, hin] using hnd
    · intro k
      simpa [sAdd, hin] using hmem k
  · simp only [if_neg hkey]
    have hnone : kvLookup st.kv (orderIDKey o.OrderID) = none := by
      cases hl : kvLookup st.kv (orderIDKey o.OrderID) with
      | none => rfl
      | some w => rw [hl] at hkey; simp at hkey
    have hnotin : orderIDKey o.OrderID ∉ st.orders := by
      intro hc
      exact hkey ((hmem _).mp hc)
    constructor
    · simp only [sAdd, if_neg hnotin]
      simpa [List.nodup_append, hnotin] using hnd
    · intro k
      simp only [sAdd, if_neg hnotin]
      rw [kvLookup_append]
      by_cases hk : k = orderIDKey o.OrderID
      · subst hk
        simp [hnone]
      · have : ¬ orderIDKey o.OrderID = k := fun hc => hk hc.symm
        cases hl : kvLookup st.kv k with
        | none =>
          simp only [hl, List.mem_append, List.mem_singleton, hk, or_false, this,
            if_neg this]
          simpa [hl] using hmem k
        | some w =>
          simp only [hl, List.mem_append, List.mem_singleton, hk, or_false]
          simpa [hl] using hmem k

theorem update_preserves_indexConsistent (st : RedisState) (o : Order)
    (h : indexConsistent st) :
    indexConsistent (Update st o noUpdateFaults).2 := by
  obtain ⟨hnd, hmem⟩ := h
  unfold Update noUpdateFaults
  simp only [Bool.false_eq_true, if_false]
  cases hl : kvLookup st.kv (orderIDKey o.OrderID) with
  | none => exact ⟨hnd, hmem⟩
  | some w =>
    refine ⟨hnd, fun k => ?_⟩
    rw [kvLookup_kvSet]
    by_cases hk : orderIDKey o.OrderID = k
    · subst hk
      simpa [hl] using hmem (orderIDKey o.OrderID)
    · simpa [hk] using hmem k

theorem delete_preserves_indexConsistent (st : RedisState) (id : Nat)
    (h : indexConsistent st) :
    indexConsistent (DeletedByID st id noDeleteFaults).2 := by
  obtain ⟨hnd, hmem⟩ := h
  unfold DeletedByID noDeleteFaults
  simp only [Bool.false_eq_true, if_false]
  refine ⟨List.Nodup.filter _ hnd, fun k => ?_⟩
  rw [mem_sRem, kvLookup_kvDel]
  by_cases hk : orderIDKey id = k
  · subst hk
    simp
  · have : k ≠ orderIDKey id := fun hc => hk hc.symm
    simpa [hk, this] using hmem k

theorem stepNF_preserves_indexConsistent (st : RedisState) (op : Op)
    (h : indexConsistent st) : indexConsistent (stepNF st op) := by
  cases op with
  | insert o => exact insert_preserves_indexConsistent st o h
  | update o => exact update_preserves_indexConsistent st o h
  | delete id => exact delete_preserves_indexConsistent st id h
  | findByID _ => exact h
  | findAll _ _ _ => exact h

theorem foldl_preserves_indexConsistent (ops : List Op) (st : RedisState)
    (h : indexConsistent st) : indexConsistent (ops.foldl stepNF st) := by
  induction ops generalizing st with
  | nil => exact h
  | cons op rest ih =>
    exact ih _ (stepNF_preserves_indexConsistent st op h)

theorem emptyState_indexConsistent : indexConsistent emptyState := by
  refine ⟨List.nodup_nil, fun k => ?_⟩
  simp [emptyState, kvLookup]

/-! ## Loop lemmas for FindAll -/

theorem decodeValues_decodeErr (vs : List (Option Json))
    (hall : ∀ v ∈ vs, v.isSome)
    (hbad : ∃ j, some j ∈ vs ∧ unmarshalOrder j = none) :
    decodeValues vs = LoopResult.decodeErr := by
  induction vs with
  | nil =>
    obtain ⟨j, hj, _⟩ := hbad
    simp at hj
  | cons v rest ih =>
    cases v with
    | none =>
      have := hall none (List.mem_cons_self _ _)
      simp at this
    | some j =>
      cases hj : unmarshalOrder j with
      | none => simp [decodeValues, hj]
      | some o =>
        obtain ⟨j', hj'mem, hj'⟩ := hbad
        rcases List.mem_cons.mp hj'mem with heq | htail
        · have hjj : j' = j := Option.some.inj heq
          rw [hjj, hj] at hj'
          simp at hj'
        · have hrest := ih (fun v hv => hall v (List.mem_cons_of_mem _ hv))
            ⟨j', htail, hj'⟩
          simp [decodeValues, hj, hrest]

theorem decodeValues_panicked (pre rest : List (Option Json))
    (hpre : ∀ v ∈ pre, ∃ j o, v = some j ∧ unmarshalOrder j = some o) :
    decodeValues (pre ++ none :: rest) = LoopResult.panicked := by
  induction pre with
  | nil => rfl
  | cons v pre ih =>
    obtain ⟨j, o, rfl, hj⟩ := hpre v (List.mem_cons_self _ _)
    have := ih (fun w hw => hpre w (List.mem_cons_of_mem _ hw))
    simp [decodeValues, hj, this]

theorem decodeValues_no_panic (vs : List (Option Json))
    (hall : ∀ v ∈ vs, v.isSome) :
    decodeValues vs ≠ LoopResult.panicked := by
  induction vs with
  | nil => simp [decodeValues]
  | cons v rest ih =>
    cases v with
    | none =>
      have := hall none (List.mem_cons_self _ _)
      simp at this
    | some j =>
      have hrest := ih (fun v hv => hall v (List.mem_cons_of_mem _ hv))
      cases hj : unmarshalOrder j with
      | none => simp [decodeValues, hj]
      | some o =>
        cases hd : decodeValues rest with
        | ok os => simp [decodeValues, hj, hd]
        | decodeErr => simp [decodeValues, hj, hd]
        | panicked => exact absurd hd hrest

/-! ## Concrete states used by witnesses and counterexamples -/

/-- The concrete order of the spec scenario in §8:
Order{OrderID:1, CustomerID:U1, LineItems:[{ItemID:I1, Quantity:2, Price:500}]}. -/
def sampleOrder : Order := ⟨1, 7, [⟨11, 2, 500⟩], none, none, none⟩

/-- A store already holding a record (arbitrary bytes) at `order:1`,
consistently indexed. -/
def occupiedState : RedisState := ⟨[("order:1", Json.num 42)], ["order:1"]⟩

/-- A store holding `sampleOrder` at `order:1`, consistently indexed. -/
def oneOrderState : RedisState := ⟨[("order:1", marshalOrder sampleOrder)], ["order:1"]⟩

/-- A corrupted store: the bytes at `order:1` are the JSON number `42`,
which `json.Unmarshal` rejects for a struct target ("cannot unmarshal
number into Go value of type model.Order"). -/
def corruptState : RedisState := ⟨[("order:1", Json.num 42)], ["order:1"]⟩

/-! ## The claims -/

/-- C1 (counterexample). The index consistency invariant fails on the code
as stated: start from the empty store, run a fault-free `Insert` of
`sampleOrder` (a reachable state), then run `DeletedByID 1` whose
transaction execution fails.  The `DEL` has already run on the raw client,
so after the operation completes the record is gone but `order:1` still
sits in the `"orders"` index — a dangling index entry after a delete. -/
theorem C1_counterexample :
    ¬ indexConsistent
      (DeletedByID (Insert emptyState sampleOrder noInsertFaults).2 1
        ⟨false, true⟩).2 := by
  intro h
  have hst : (DeletedByID (Insert emptyState sampleOrder noInsertFaults).2 1
      ⟨false, true⟩).2 = ⟨[], ["order:1"]⟩ := rfl
  rw [hst] at h
  have := (h.2 "order:1").mp (List.mem_singleton.mpr rfl)
  simp [kvLookup] at this

/-- C1 (amended). In executions where the backend reports no errors, the
index invariant does hold: after any sequence of repository operations from
the empty store, the `"orders"` set contains exactly one entry per
currently stored key — no dangling entries, no missing entries. -/
theorem C1_index_invariant_fault_free (ops : List Op) :
    indexConsistent (runNF ops) :=
  foldl_preserves_indexConsistent ops emptyState emptyState_indexConsistent

/-- C2. Serialization round-trip: decoding the encoding of any Order value
(zero line items and absent optional timestamps included) yields the same
Order. -/
theorem C2_roundtrip (o : Order) :
    unmarshalOrder (marshalOrder o) = some o :=
  unmarshal_marshal_order o

/-- C3. Insert-then-FindByID: if no record is stored at the key of order
`o`, a fault-free `Insert o` succeeds and an immediately following
`FindByID o.OrderID` returns exactly `o`. -/
theorem C3_insert_then_findByID (st : RedisState) (o : Order)
    (h : kvLookup st.kv (orderIDKey o.OrderID) = none) :
    (Insert st o noInsertFaults).1 = Except.ok () ∧
    FindByID (Insert st o noInsertFaults).2 o.OrderID noFindFaults
      = Except.ok o := by
  unfold Insert FindByID noInsertFaults noFindFaults
  simp only [h, Option.isSome_none, Bool.false_eq_true, if_false]
  refine ⟨trivial, ?_⟩
  rw [kvLookup_append]
  simp [h, unmarshal_marshal_order]

/-- C3 (witness): the spec §8 scenario on the empty store. -/
theorem C3_insert_then_findByID_witness :
    kvLookup emptyState.kv (orderIDKey sampleOrder.OrderID) = none ∧
    ((Insert emptyState sampleOrder noInsertFaults).1 = Except.ok () ∧
     FindByID (Insert emptyState sampleOrder noInsertFaults).2
       sampleOrder.OrderID noFindFaults = Except.ok sampleOrder) :=
  ⟨rfl, C3_insert_then_findByID emptyState sampleOrder rfl⟩

/-- C4 (counterexample). A second insert against an occupied key does NOT
fail: on `occupiedState`, which already stores bytes at `order:1`,
`Insert sampleOrder` (OrderID 1) returns `ok` and leaves the state
unchanged — a silent success, falsifying "fails with an AlreadyExists or
StoreError error".  (`SET … NX` is rejected by the backend, but go-redis
reports the rejected conditional write as `false` with a nil error, and
the code never inspects the boolean.) -/
theorem C4_counterexample :
    Insert occupiedState sampleOrder noInsertFaults
      = (Except.ok (), occupiedState) := rfl

/-- C4 (amended). Re-inserting an existing key is a silent no-op on the
record: whenever a record is already stored at the key of `o`, a
fault-free `Insert o` returns success (nil error) and the stored
key-value space — in particular the original record bytes — is unchanged. -/
theorem C4_reinsert_silent_noop (st : RedisState) (o : Order) (d : Json)
    (h : kvLookup st.kv (orderIDKey o.OrderID) = some d) :
    (Insert st o noInsertFaults).1 = Except.ok () ∧
    (Insert st o noInsertFaults).2.kv = st.kv := by
  unfold Insert noInsertFaults
  simp [h]

/-- C4 (witness): re-inserting over the occupied store. -/
theorem C4_reinsert_silent_noop_witness :
    kvLookup occupiedState.kv (orderIDKey sampleOrder.OrderID)
      = some (Json.num 42) ∧
    ((Insert occupiedState sampleOrder noInsertFaults).1 = Except.ok () ∧
     (Insert occupiedState sampleOrder noInsertFaults).2.kv
       = occupiedState.kv) :=
  ⟨rfl, C4_reinsert_silent_noop occupiedState sampleOrder (Json.num 42) rfl⟩

/-- C5. Insert is NOT atomic: `SetNX` runs on the raw client outside the
transaction, so when the transaction execution fails, `Insert` returns an
error yet the record is already persisted at `order:1` (and the index
entry is not), contradicting "if Insert returns an error, then neither the
record nor the index entry was newly persisted". -/
theorem C5_insert_commit_failure_persists_record :
    (Insert emptyState sampleOrder ⟨false, true⟩).1
      = Except.error RepoError.insertFailed ∧
    kvLookup (Insert emptyState sampleOrder ⟨false, true⟩).2.kv
      (orderIDKey sampleOrder.OrderID) = some (marshalOrder sampleOrder) ∧
    (Insert emptyState sampleOrder ⟨false, true⟩).2.orders = [] :=
  ⟨rfl, rfl, rfl⟩

/-- C6. Deleting a missing key does NOT fail: `DEL` returns a count (0 for
a missing key) and never the `redis.Nil` sentinel, so the code's
`ErrNotExist` branch is unreachable and `DeletedByID 1` on the empty store
returns `ok` with the store unchanged — the claim (and the code's own
dead branch) say it should fail with NotFound. -/
theorem C6_delete_missing_returns_ok :
    DeletedByID emptyState 1 noDeleteFaults = (Except.ok (), emptyState) :=
  rfl

/-- C7. Updating a missing key does NOT fail: go-redis reports a rejected
`SET … XX` as `false` with a nil error, never `redis.Nil`, so the code's
`ErrNotExist` branch is unreachable and `Update` of `sampleOrder` on the
empty store returns `ok` with the store unchanged (nothing is created) —
the claim (and the code's own dead branch) say it should fail with
NotFound. -/
theorem C7_update_missing_returns_ok :
    Update emptyState sampleOrder noUpdateFaults = (Except.ok (), emptyState) :=
  rfl

/-- C8 (counterexample). When the scan yields zero keys, the continuation
cursor is NOT reported: with a successful scan reply of no keys and cursor
5, `FindAll` returns an empty page whose `Cursor` field is the zero value
0, discarding the continuation cursor 5. -/
theorem C8_counterexample :
    FindAll emptyState ⟨10, 0⟩ (some ⟨[], 5⟩) false
      = FindAllOutcome.ok { Orders := [], Cursor := 0 } ∧ (5 : Nat) ≠ 0 :=
  ⟨rfl, by decide⟩

/-- C8 (amended). A `FindAll` whose scan succeeds behaves as follows: on a
page of zero keys it returns an empty order sequence with no error but
with `Cursor` fixed to the zero value 0 (the scan cursor is discarded); on
a nonempty page whose bulk fetch and decoding succeed, the result carries
the decoded orders and the scan's continuation cursor. -/
theorem C8_paging_result (st : RedisState) (page : FindAllPage)
    (reply : ScanReply) :
    (∀ mg : Bool, reply.keys = [] →
      FindAll st page (some reply) mg
        = FindAllOutcome.ok { Orders := [], Cursor := 0 }) ∧
    (∀ os : List Order, reply.keys ≠ [] →
      decodeValues (reply.keys.map (kvLookup st.kv)) = LoopResult.ok os →
      FindAll st page (some reply) false
        = FindAllOutcome.ok { Orders := os, Cursor := reply.cursor }) := by
  constructor
  · intro mg h
    simp [FindAll, h]
  · intro os h hd
    simp [FindAll, h, hd]

/-- C8 (witness): the empty page discards cursor 5; a one-key page over
`oneOrderState` carries cursor 7. -/
theorem C8_paging_result_witness :
    FindAll emptyState ⟨10, 0⟩ (some ⟨[], 5⟩) false
      = FindAllOutcome.ok { Orders := [], Cursor := 0 } ∧
    FindAll oneOrderState ⟨10, 0⟩ (some ⟨["order:1"], 7⟩) false
      = FindAllOutcome.ok { Orders := [sampleOrder], Cursor := 7 } :=
  ⟨(C8_paging_result emptyState ⟨10, 0⟩ ⟨[], 5⟩).1 false rfl,
   (C8_paging_result oneOrderState ⟨10, 0⟩ ⟨["order:1"], 7⟩).2 [sampleOrder]
     (by simp) rfl⟩

/-- C9. All-or-nothing page decoding: if every bulk-fetched value is
present (a string) but some fetched record does not deserialize into an
Order, `FindAll` fails with the decode error and returns no partial
page. -/
theorem C9_bad_record_fails_page (st : RedisState) (page : FindAllPage)
    (reply : ScanReply)
    (hne : reply.keys ≠ [])
    (hall : ∀ v ∈ reply.keys.map (kvLookup st.kv), v.isSome)
    (hbad : ∃ j, some j ∈ reply.keys.map (kvLookup st.kv) ∧
      unmarshalOrder j = none) :
    FindAll st page (some reply) false
      = FindAllOutcome.err RepoError.decodeFailed := by
  have hd := decodeValues_decodeErr _ hall hbad
  simp [FindAll, hne, hd]

/-- C9 (witness): one stored record whose bytes are the JSON number `42`
fails the page. -/
theorem C9_bad_record_fails_page_witness :
    ((["order:1"] : List String) ≠ [] ∧
      (∀ v ∈ (["order:1"] : List String).map (kvLookup corruptState.kv),
        v.isSome)) ∧
    FindAll corruptState ⟨10, 0⟩ (some ⟨["order:1"], 0⟩) false
      = FindAllOutcome.err RepoError.decodeFailed :=
  ⟨⟨by simp, by simp [corruptState, kvLookup]⟩,
   C9_bad_record_fails_page corruptState ⟨10, 0⟩ ⟨["order:1"], 0⟩
     (by simp) (by simp [corruptState, kvLookup])
     ⟨Json.num 42, by simp [corruptState, kvLookup], rfl⟩⟩

/-- C10 (counterexample). It is not true that every `FindAll` call with a
scanned key lacking a stored record panics: over `corruptState` with
scanned keys `[order:1, order:2]`, the key `order:2` has no stored record
(its MGET value is nil), yet the loop hits the genuinely undecodable
record at `order:1` first — its bytes are the JSON number `42`, which
`json.Unmarshal` rejects for a struct — and `FindAll` returns the decode
error before the assertion ever sees the nil value, so it does not
panic. -/
theorem C10_counterexample :
    kvLookup corruptState.kv "order:2" = none ∧
    FindAll corruptState ⟨10, 0⟩ (some ⟨["order:1", "order:2"], 0⟩) false
      = FindAllOutcome.err RepoError.decodeFailed :=
  ⟨rfl, rfl⟩

/-- C10 (amended). The unchecked `x.(string)` assertion panics on the
first nil MGET value provided every earlier fetched record decodes: if the
fetched values split as `pre ++ nil :: rest` with every value in `pre` a
decodable record, `FindAll` panics instead of returning an error; and
`FindAll` never panics when every scanned key still has a stored record at
fetch time. -/
theorem C10_nil_fetch_panics (st : RedisState) (page : FindAllPage)
    (reply : ScanReply) (hne : reply.keys ≠ []) :
    ((∃ pre rest, reply.keys.map (kvLookup st.kv) = pre ++ none :: rest ∧
        ∀ v ∈ pre, ∃ j o, v = some j ∧ unmarshalOrder j = some o) →
      FindAll st page (some reply) false = FindAllOutcome.panicked) ∧
    ((∀ v ∈ reply.keys.map (kvLookup st.kv), v.isSome) →
      FindAll st page (some reply) false ≠ FindAllOutcome.panicked) := by
  constructor
  · rintro ⟨pre, rest, hsplit, hpre⟩
    have hd := decodeValues_panicked pre rest hpre
    rw [← hsplit] at hd
    simp [FindAll, hne, hd]
  · intro hall
    have hd := decodeValues_no_panic _ hall
    cases hdv : decodeValues (reply.keys.map (kvLookup st.kv)) with
    | ok os => simp [FindAll, hne, hdv]
    | decodeErr => simp [FindAll, hne, hdv]
    | panicked => exact absurd hdv hd

/-- C10 (witness): over `oneOrderState`, scanning `[order:1, order:2]`
(where `order:2` has no record) panics, while scanning `[order:1]` alone
does not. -/
theorem C10_nil_fetch_panics_witness :
    FindAll oneOrderState ⟨10, 0⟩ (some ⟨["order:1", "order:2"], 0⟩) false
      = FindAllOutcome.panicked ∧
    FindAll oneOrderState ⟨10, 0⟩ (some ⟨["order:1"], 0⟩) false
      ≠ FindAllOutcome.panicked :=
  ⟨(C10_nil_fetch_panics oneOrderState ⟨10, 0⟩ ⟨["order:1", "order:2"], 0⟩
      (by simp)).1
    ⟨[some (marshalOrder sampleOrder)], [], rfl,
     fun v hv => ⟨marshalOrder sampleOrder, sampleOrder,
       List.mem_singleton.mp hv, unmarshal_marshal_order sampleOrder⟩⟩,
   (C10_nil_fetch_panics oneOrderState ⟨10, 0⟩ ⟨["order:1"], 0⟩
      (by simp)).2
    (by simp [oneOrderState, kvLookup])⟩

end OrdersApi
